import Mathlib

/-!
Shallow embedding of the hackathonFetcher repository
(src/api/crawler.py, src/api/utils.py, src/api/cache.py, src/cache.py)
together with theorems settling the frozen claims about its
filter-and-cache pipeline.

Python dictionaries are modelled as association lists queried with
`List.lookup` and updated with `insertAssoc` (update-in-place on an
existing key, append otherwise — the insertion-order semantics of a
Python dict).  External HTTP collaborators (the geocoding provider and
the detail pages) are modelled as oracle functions passed explicitly.
Machine text helpers mirror the exact Python expressions used by the
source and are noted at their definitions.
-/

namespace Devpost

/-- Python dict assignment `d[k] = v` on an association list: replaces the
value at the first occurrence of `k`, otherwise appends the pair. -/
def insertAssoc {α β : Type} [BEq α] (k : α) (v : β) : List (α × β) → List (α × β)
  | [] => [(k, v)]
  | (k₁, v₁) :: rest => if k₁ == k then (k, v) :: rest else (k₁, v₁) :: insertAssoc k v rest

/-- Python `startswith` on character lists. -/
def listStartsWith {α : Type} [BEq α] : List α → List α → Bool
  | [], _ => true
  | _ :: _, [] => false
  | a :: as, b :: bs => a == b && listStartsWith as bs

/-- Python substring containment `n in h` on character lists. -/
def listContainsSub {α : Type} [BEq α] (n : List α) : List α → Bool
  | [] => n.isEmpty
  | b :: bs => listStartsWith n (b :: bs) || listContainsSub n bs

/-- Python `needle in hay` on strings (substring test). -/
def pyIn (needle hay : String) : Bool := listContainsSub needle.data hay.data

/-- Python `str.lower` on the ASCII range the repository compares
(province names, country codes, location texts, eligibility items). -/
def pyLower (s : String) : String := ⟨s.data.map Char.toLower⟩

/-- Python `str.isdigit` restricted to the ASCII digits that occur in the
prize texts the crawler handles: nonempty and all characters are digits. -/
def pyIsdigit (s : String) : Bool := !s.data.isEmpty && s.data.all Char.isDigit

/-- Python `int` on a digit string (the only form the crawler feeds it). -/
def digitsToNat (s : String) : Nat :=
  s.data.foldl (fun a c => a * 10 + (c.toNat - 48)) 0

/-- Python `s.replace(",", "")`. -/
def stripCommas (s : String) : String := ⟨s.data.filter (fun c => !(c == ','))⟩

/-- Helper for `pyThousands`: groups a reversed digit list in threes. -/
def commaGroup : List Char → List Char
  | a :: b :: c :: d :: rest => a :: b :: c :: ',' :: commaGroup (d :: rest)
  | l => l

/-- Python format spec `f"{n:,}"` on a natural number: decimal digits with
a comma every three positions from the right. -/
def pyThousands (n : Nat) : String := ⟨(commaGroup (toString n).data.reverse).reverse⟩

/-! ## Geocoding model (src/api/utils.py)

The Google Geocoding JSON response is modelled by `GeoOutcome`: `error`
covers a `requests` exception or a JSON decode failure (the two `except`
arms, both returning `False` to the caller), and `results rs` a
successful response whose `results` array is `rs`. -/

structure AddressComponent where
  types : List String
  long_name : String
  short_name : String
deriving DecidableEq, Repr

structure GeoResult where
  address_components : List AddressComponent
deriving DecidableEq, Repr

inductive GeoOutcome where
  | error
  | results (rs : List GeoResult)
deriving DecidableEq, Repr

/-- Output record built by the crawler (src/api/crawler.py lines 217 to 223). -/
structure FilteredHackathon where
  name : String
  url : String
  location : String
  prize : String
  date : String
deriving DecidableEq, Repr

/-- The persisted cache document: partitions `hackathons` (url to accepted
record) and `locations` (location text to region verdict). -/
structure Cache where
  hackathons : List (String × FilteredHackathon)
  locations : List (String × Bool)
deriving DecidableEq, Repr

/-- The component loop of `is_in_british_columbia_google` (utils.py lines
51 to 62): walks `address_components`, breaking with `False` on the first
administrative-division or country mismatch. -/
def bcComponents : List AddressComponent → Bool
  | [] => true
  | c :: rest =>
    if c.types.contains "administrative_area_level_1" && !(pyLower c.long_name == "british columbia") then
      false
    else if c.types.contains "country" && !(pyLower c.short_name == "ca") then
      false
    else bcComponents rest

/-- src/api/utils.py `is_in_british_columbia_google`.  `geocode` is the
external Geocoding API; the `Cache` argument and first two components of
the result model the process-wide store bracketed by its own
`load_cache()` and `save_cache(...)` calls; the final `Bool` records
whether an outbound geocoding call was issued. -/
def is_in_british_columbia_google (geocode : String → GeoOutcome)
    (address api_key : String) (store : Cache) : Bool × Cache × Bool :=
  if api_key = "" then (false, store, false)
  else
    match List.lookup address store.locations with
    | some b => (b, store, false)
    | none =>
      match geocode address with
      | .error => (false, store, true)
      | .results [] =>
        (false, { store with locations := insertAssoc address false store.locations }, true)
      | .results (result :: _) =>
        (bcComponents result.address_components,
         { store with locations := insertAssoc address (bcComponents result.address_components) store.locations },
         true)

/-! ## Cache store variants (src/api/cache.py and src/cache.py)

JSON values decoded by the Python `json` module are modelled by `PyVal`;
a decoder (`json.loads` or `json.load`) is an oracle
`String → Option PyVal`, `none` meaning the decode raised. -/

inductive PyVal where
  | dict (entries : List (String × PyVal))
  | other

/-- Decode one Redis cell as src/api/cache.py `load_cache` does: a missing
key or an empty string is falsy and yields an empty dict, a decode failure
is caught and yields an empty dict, otherwise the decoded value is used. -/
def decodeCell (jloads : String → Option PyVal) : Option String → PyVal
  | none => .dict []
  | some s => if s = "" then .dict [] else (jloads s).getD (.dict [])

/-- src/api/cache.py `load_cache`: returns the pair of decoded partitions
(the Python dict with keys `hackathons` and `locations`). -/
def load_cache_kv (jloads : String → Option PyVal) (hackathonsRaw locationsRaw : Option String) :
    PyVal × PyVal :=
  (decodeCell jloads hackathonsRaw, decodeCell jloads locationsRaw)

/-- Python `data.setdefault(key, default)` specialised to the empty-dict
default used by src/cache.py. -/
def pySetdefault (m : List (String × PyVal)) (key : String) : List (String × PyVal) :=
  if (List.lookup key m).isSome then m else m ++ [(key, .dict [])]

/-- src/cache.py `load_cache` (the file-backed variant).  The file content
is `none` when the file does not exist.  A `none` result models an uncaught
exception escaping `load_cache`: the variant has no handler around
`json.load`, and `setdefault` on a non-dict value raises as well. -/
def load_cache_file (jload : String → Option PyVal) (fileContent : Option String) :
    Option PyVal :=
  match fileContent with
  | none => some (.dict [("hackathons", .dict []), ("locations", .dict [])])
  | some content =>
    match jload content with
    | none => none
    | some (.dict m) => some (.dict (pySetdefault (pySetdefault m "hackathons") "locations"))
    | some .other => none

/-- Module-level credential check of src/api/cache.py (lines 14 to 23):
a missing environment variable is the empty string; either one missing
raises at import time, before any request is served. -/
def cacheModuleInit (url token : String) : Except String Unit :=
  if url = "" then .error "CACHE_KV_REST_API_URL not set."
  else if token = "" then .error "CACHE_KV_REST_API_TOKEN not set."
  else .ok ()

/-! ## Detail pages (src/api/crawler.py lines 32 to 110)

`FetchResult` models one detail-page fetch: `failed` covers an
`aiohttp.ClientError` (the code returns the empty string, which is falsy
at the `if html:` check) as well as an empty document; `page els` models a
successfully fetched document whose `#eligibility-list li` elements have
stripped texts `els`. -/

inductive FetchResult where
  | failed
  | page (eligibility_elements : List String)
deriving DecidableEq, Repr

/-- The Python dict built by `parse_hackathon_details` (or the empty dict
for a failed fetch): both keys are optional, `none` meaning absent. -/
structure Details where
  eligibility_items : Option (List String)
  us_only : Option Bool
deriving DecidableEq, Repr

/-- Word characters for the regex word boundary. -/
def isWordChar (c : Char) : Bool := c.isAlphanum || c == '_'

/-- Matches the terminal piece of the pattern: literal `only` followed by a
word boundary. -/
def matchOnlyTail : List Char → Bool
  | 'o' :: 'n' :: 'l' :: 'y' :: rest =>
    match rest with
    | [] => true
    | c :: _ => !isWordChar c
  | _ => false

/-- After the literal `us`, the regex consumes whitespace and then must
match `only`; since `only` starts with a non-whitespace character the
greedy whitespace run is exact. -/
def afterUs (l : List Char) : Bool := matchOnlyTail (l.dropWhile Char.isWhitespace)

/-- A match of the regex starting exactly at this position (the word
boundary before it is checked by the caller). -/
def usOnlyAt : List Char → Bool
  | 'u' :: 's' :: rest => afterUs rest
  | _ => false

/-- Scanner for `re.search`: tries each position whose preceding character
is not a word character.  The scanned entries are already lower-cased, so
the IGNORECASE flag needs no separate handling. -/
def usOnlyScan : Bool → List Char → Bool
  | _, [] => false
  | prevIsWord, c :: rest =>
    (!prevIsWord && usOnlyAt (c :: rest)) || usOnlyScan (isWordChar c) rest

/-- The compiled pattern of crawler.py line 67 applied via `re.search`. -/
def usOnlySearch (s : String) : Bool := usOnlyScan false s.data

/-- src/api/crawler.py `parse_hackathon_details`, applied to the stripped
texts of the `#eligibility-list li` elements of the page. -/
def parse_hackathon_details (eligibility_elements : List String) : Details :=
  if eligibility_elements.isEmpty then
    { eligibility_items := some [], us_only := none }
  else
    { eligibility_items := some (eligibility_elements.map pyLower),
      us_only := some ((eligibility_elements.map pyLower).any usOnlySearch) }

/-- The detail dict recorded for one url by `fetch_all_hackathon_details`:
the parse of the page on success, the empty dict on a failed fetch. -/
def detailFor (fetch : String → FetchResult) (url : String) : Details :=
  match fetch url with
  | .failed => { eligibility_items := none, us_only := none }
  | .page els => parse_hackathon_details els

/-- src/api/crawler.py `fetch_all_hackathon_details`: one fetch per
candidate, all settled, results written into a dict keyed by url in
candidate order.  Called with `acc = []`. -/
def fetch_all_hackathon_details (fetch : String → FetchResult) :
    List FilteredHackathon → List (String × Details) → List (String × Details)
  | [], acc => acc
  | h :: rest, acc =>
    fetch_all_hackathon_details fetch rest (insertAssoc h.url (detailFor fetch h.url) acc)

/-- src/api/crawler.py module constant `excluded_keywords` inside
`is_target_audience`. -/
def excluded_keywords : List String := ["ages 13 to 18 only"]

/-- src/api/crawler.py `is_target_audience`. -/
def is_target_audience (eligibility_items : List String) : Bool :=
  !(excluded_keywords.any fun keyword => eligibility_items.any fun item => pyIn keyword item)

/-! ## The filter pipeline (src/api/crawler.py `fetch_hackathon_data`)

The page-fetching prelude (lines 130 to 158) concatenates upstream pages
into `all_hackathons`; the embedding starts from that list.  A raw
upstream record is modelled by the fields the pipeline reads, each
`Option` capturing `dict.get` with its default; `prize_text` is the
visible text extracted from the prize markup by
`BeautifulSoup(...).get_text(strip=True)` (a missing or empty prize field
yields the empty string). -/

structure RawHackathon where
  title : Option String
  url : Option String
  location : Option String
  prize_text : String
  submission_period_dates : Option String
deriving DecidableEq, Repr

/-- src/api/crawler.py lines 26 to 29. -/
def SYMBOL_TO_CURRENCY : List (String × String) := [("$", "USD"), ("CAD", "CAD")]

/-- crawler.py lines 192 to 193: strip commas from `prize_text[1:]`; the
result parses as the amount when it is all digits, and as 0 otherwise. -/
def parse_prize_amount (afterSymbol : String) : Nat :=
  if pyIsdigit (stripCommas afterSymbol) then digitsToNat (stripCommas afterSymbol) else 0

/-- The geography stage (crawler.py lines 206 to 214): an `online`
substring of the lower-cased location passes outright; otherwise the
resolver decides.  The triple mirrors `is_in_british_columbia_google`. -/
def geographyPasses (geocode : String → GeoOutcome) (api_key location : String)
    (store : Cache) : Bool × Cache × Bool :=
  if pyIn "online" (pyLower location) then (true, store, false)
  else is_in_british_columbia_google geocode location api_key store

/-- One iteration of the stage-one loop (crawler.py lines 166 to 227) on a
raw record: the seen-filter against the in-memory `hackathon_cache`
snapshot, the prize-text parse, the currency filter, the dead
`if not currency_code` guard, and the geography stage.  Returns the
candidate record, if any, and the store as left by any resolver call. -/
def processOne (geocode : String → GeoOutcome) (api_key : String)
    (hackathon_cache : List (String × FilteredHackathon))
    (h : RawHackathon) (store : Cache) : Option FilteredHackathon × Cache :=
  if (List.lookup (h.url.getD "N/A") hackathon_cache).isSome then (none, store)
  else
    match h.prize_text.data with
    | [] => (none, store)
    | c :: cs =>
      match List.lookup (String.mk [c]) SYMBOL_TO_CURRENCY with
      | none => (none, store)
      | some currency_code =>
        if currency_code = "" then (none, store)
        else
          if (geographyPasses geocode api_key (h.location.getD "Unknown") store).1 then
            (some { name := h.title.getD "N/A",
                    url := h.url.getD "N/A",
                    location := h.location.getD "Unknown",
                    prize := currency_code ++ " " ++ pyThousands (parse_prize_amount (String.mk cs)),
                    date := h.submission_period_dates.getD "Unknown" },
             (geographyPasses geocode api_key (h.location.getD "Unknown") store).2.1)
          else (none, (geographyPasses geocode api_key (h.location.getD "Unknown") store).2.1)

/-- The stage-one loop over all raw records, accumulating
`filtered_hackathons` in order and threading the store through the
resolver calls. -/
def stage1 (geocode : String → GeoOutcome) (api_key : String)
    (hackathon_cache : List (String × FilteredHackathon)) :
    List RawHackathon → Cache → List FilteredHackathon × Cache
  | [], store => ([], store)
  | h :: rest, store =>
    match processOne geocode api_key hackathon_cache h store with
    | (none, store₁) => stage1 geocode api_key hackathon_cache rest store₁
    | (some fh, store₁) =>
      ((fh :: (stage1 geocode api_key hackathon_cache rest store₁).1),
       (stage1 geocode api_key hackathon_cache rest store₁).2)

/-- The stage-two loop (crawler.py lines 239 to 260): looks up each
candidate in `detailed_info` (empty dict default), drops it on the
`US only` flag or on an excluded-audience keyword, and otherwise inserts
it into `hackathon_cache` and appends it to the final list. -/
def stage2 (detailed_info : List (String × Details)) :
    List FilteredHackathon → List (String × FilteredHackathon) →
    List FilteredHackathon × List (String × FilteredHackathon)
  | [], hackathon_cache => ([], hackathon_cache)
  | h :: rest, hackathon_cache =>
    if ((List.lookup h.url detailed_info).getD { eligibility_items := none, us_only := none }).us_only.getD false then
      stage2 detailed_info rest hackathon_cache
    else if !is_target_audience (((List.lookup h.url detailed_info).getD { eligibility_items := none, us_only := none }).eligibility_items.getD []) then
      stage2 detailed_info rest hackathon_cache
    else
      ((h :: (stage2 detailed_info rest (insertAssoc h.url h hackathon_cache)).1),
       (stage2 detailed_info rest (insertAssoc h.url h hackathon_cache)).2)

/-- src/api/crawler.py `fetch_hackathon_data` from line 156 on, for a
fixed batch `all_hackathons` of upstream records.  `store` is the
persisted cache document; the returned store reflects the saves actually
issued: resolver saves during stage one, and — only when stage one
produced candidates — the final `save_cache(cache_data)`, which writes
the in-memory `cache_data` whose `locations` partition is still the
snapshot loaded at the start of the run. -/
def fetch_hackathon_data (geocode : String → GeoOutcome) (fetch : String → FetchResult)
    (api_key : String) (all_hackathons : List RawHackathon) (store : Cache) :
    List FilteredHackathon × Cache :=
  if all_hackathons.isEmpty then ([], store)
  else
    if (stage1 geocode api_key store.hackathons all_hackathons store).1.isEmpty then
      ([], (stage1 geocode api_key store.hackathons all_hackathons store).2)
    else
      ((stage2 (fetch_all_hackathon_details fetch (stage1 geocode api_key store.hackathons all_hackathons store).1 [])
          (stage1 geocode api_key store.hackathons all_hackathons store).1 store.hackathons).1,
       { hackathons :=
           (stage2 (fetch_all_hackathon_details fetch (stage1 geocode api_key store.hackathons all_hackathons store).1 [])
              (stage1 geocode api_key store.hackathons all_hackathons store).1 store.hackathons).2,
         locations := store.locations })

/-! ## Proof support: the resolver as a pure verdict plus cache growth -/

/-- The verdict the resolver computes for an uncached address: the pure
function of the geocode oracle that ends up stored in the cache. -/
def pureVerdict (geocode : String → GeoOutcome) (api_key a : String) : Bool :=
  if api_key = "" then false
  else
    match geocode a with
    | .error => false
    | .results [] => false
    | .results (r :: _) => bcComponents r.address_components

/-- The verdict of a resolver call against a given locations partition. -/
def verdictIn (geocode : String → GeoOutcome) (api_key : String)
    (L : List (String × Bool)) (a : String) : Bool :=
  if api_key = "" then false
  else
    match List.lookup a L with
    | some b => b
    | none => pureVerdict geocode api_key a

/-- `L` extends `L0` only by entries the resolver itself would write:
every key reads as in `L0`, or was absent there and now holds the pure
verdict of the oracle. -/
def extLoc (geocode : String → GeoOutcome) (api_key : String)
    (L0 L : List (String × Bool)) : Prop :=
  ∀ a, List.lookup a L = List.lookup a L0 ∨
    (List.lookup a L0 = none ∧ List.lookup a L = some (pureVerdict geocode api_key a))

/-- The geography stage as a pure predicate over a fixed locations base. -/
def pureGeo (geocode : String → GeoOutcome) (api_key : String)
    (L0 : List (String × Bool)) (location : String) : Bool :=
  if pyIn "online" (pyLower location) then true else verdictIn geocode api_key L0 location

/-- The stage-one decision as a pure function of the seen set and a fixed
locations base: what `processOne` returns once the store threading is
factored out. -/
def pureOutcome (geocode : String → GeoOutcome) (api_key : String)
    (L0 : List (String × Bool)) (seen : List (String × FilteredHackathon))
    (h : RawHackathon) : Option FilteredHackathon :=
  if (List.lookup (h.url.getD "N/A") seen).isSome then none
  else
    match h.prize_text.data with
    | [] => none
    | c :: cs =>
      match List.lookup (String.mk [c]) SYMBOL_TO_CURRENCY with
      | none => none
      | some currency_code =>
        if currency_code = "" then none
        else
          if pureGeo geocode api_key L0 (h.location.getD "Unknown") then
            some { name := h.title.getD "N/A",
                   url := h.url.getD "N/A",
                   location := h.location.getD "Unknown",
                   prize := currency_code ++ " " ++ pyThousands (parse_prize_amount (String.mk cs)),
                   date := h.submission_period_dates.getD "Unknown" }
          else none

/-- The stage-two decision for one candidate against a detail dict: not
flagged `US only` and not matching an excluded-audience keyword. -/
def stage2Pass (detailed_info : List (String × Details)) (h : FilteredHackathon) : Bool :=
  !(((List.lookup h.url detailed_info).getD { eligibility_items := none, us_only := none }).us_only.getD false)
  && is_target_audience (((List.lookup h.url detailed_info).getD { eligibility_items := none, us_only := none }).eligibility_items.getD [])

/-- The stage-two decision as a pure function of the fetch oracle. -/
def eligPure (fetch : String → FetchResult) (h : FilteredHackathon) : Bool :=
  !((detailFor fetch h.url).us_only.getD false)
  && is_target_audience ((detailFor fetch h.url).eligibility_items.getD [])

theorem lookup_insertAssoc_self {α β : Type} [BEq α] [LawfulBEq α]
    (k : α) (v : β) (l : List (α × β)) :
    List.lookup k (insertAssoc k v l) = some v := by
  induction l with
  | nil => simp [insertAssoc, List.lookup]
  | cons p rest ih =>
    obtain ⟨k₁, v₁⟩ := p
    by_cases h : k₁ = k
    · subst h
      simp [insertAssoc, List.lookup]
    · have hb : (k₁ == k) = false := by simp [h]
      have hb' : (k == k₁) = false := by simp [Ne.symm h]
      simp [insertAssoc, List.lookup, hb, hb', ih]

theorem lookup_insertAssoc_ne {α β : Type} [BEq α] [LawfulBEq α]
    {u k : α} (h : u ≠ k) (v : β) (l : List (α × β)) :
    List.lookup u (insertAssoc k v l) = List.lookup u l := by
  induction l with
  | nil =>
    have hb : (u == k) = false := by simp [h]
    simp [insertAssoc, List.lookup, hb]
  | cons p rest ih =>
    obtain ⟨k₁, v₁⟩ := p
    by_cases hk : k₁ = k
    · subst hk
      have hb : (u == k₁) = false := by simp [h]
      simp [insertAssoc, List.lookup, hb]
    · have hb : (k₁ == k) = false := by simp [hk]
      by_cases hu : u = k₁
      · subst hu
        simp [insertAssoc, List.lookup, hb]
      · have hb' : (u == k₁) = false := by simp [hu]
        simp [insertAssoc, List.lookup, hb, hb', ih]

theorem lookup_insertAssoc_isSome {α β : Type} [BEq α] [LawfulBEq α]
    {u : α} {l : List (α × β)} (k : α) (v : β)
    (h : (List.lookup u l).isSome = true) :
    (List.lookup u (insertAssoc k v l)).isSome = true := by
  by_cases hu : u = k
  · subst hu
    simp [lookup_insertAssoc_self]
  · rw [lookup_insertAssoc_ne hu]
    exact h

theorem extLoc_refl (geocode : String → GeoOutcome) (api_key : String)
    (L : List (String × Bool)) : extLoc geocode api_key L L :=
  fun _ => Or.inl rfl

theorem extLoc_insert (geocode : String → GeoOutcome) (api_key : String)
    {L0 L : List (String × Bool)} {a : String}
    (he : extLoc geocode api_key L0 L) (hnone : List.lookup a L = none) :
    extLoc geocode api_key L0 (insertAssoc a (pureVerdict geocode api_key a) L) := by
  intro b
  by_cases hb : b = a
  · subst hb
    rcases he b with h | ⟨h0, hsome⟩
    · right
      exact ⟨h ▸ hnone, lookup_insertAssoc_self _ _ _⟩
    · rw [hsome] at hnone
      cases hnone
  · rw [lookup_insertAssoc_ne hb]
    exact he b

theorem verdictIn_ext (geocode : String → GeoOutcome) (api_key : String)
    {L0 L : List (String × Bool)} (he : extLoc geocode api_key L0 L) (a : String) :
    verdictIn geocode api_key L a = verdictIn geocode api_key L0 a := by
  by_cases hk : api_key = ""
  · simp [verdictIn, hk]
  · rcases he a with h | ⟨h0, hsome⟩
    · simp [verdictIn, hk, h]
    · simp [verdictIn, hk, h0, hsome]

theorem is_in_bc_verdict (geocode : String → GeoOutcome) (a api_key : String) (s : Cache) :
    (is_in_british_columbia_google geocode a api_key s).1 = verdictIn geocode api_key s.locations a := by
  by_cases hk : api_key = ""
  · simp [is_in_british_columbia_google, verdictIn, hk]
  · cases hl : List.lookup a s.locations with
    | some b => simp [is_in_british_columbia_google, verdictIn, hk, hl]
    | none =>
      cases hg : geocode a with
      | error => simp [is_in_british_columbia_google, verdictIn, pureVerdict, hk, hl, hg]
      | results rs =>
        cases rs with
        | nil => simp [is_in_british_columbia_google, verdictIn, pureVerdict, hk, hl, hg]
        | cons r rest => simp [is_in_british_columbia_google, verdictIn, pureVerdict, hk, hl, hg]

theorem is_in_bc_store (geocode : String → GeoOutcome) (a api_key : String) (s : Cache) :
    (is_in_british_columbia_google geocode a api_key s).2.1 = s ∨
    (List.lookup a s.locations = none ∧
     (is_in_british_columbia_google geocode a api_key s).2.1 =
       { s with locations := insertAssoc a (pureVerdict geocode api_key a) s.locations }) := by
  by_cases hk : api_key = ""
  · left
    simp [is_in_british_columbia_google, hk]
  · cases hl : List.lookup a s.locations with
    | some b =>
      left
      simp [is_in_british_columbia_google, hk, hl]
    | none =>
      cases hg : geocode a with
      | error =>
        left
        simp [is_in_british_columbia_google, hk, hl, hg]
      | results rs =>
        cases rs with
        | nil =>
          right
          refine ⟨rfl, ?_⟩
          simp [is_in_british_columbia_google, pureVerdict, hk, hl, hg]
        | cons r rest =>
          right
          refine ⟨rfl, ?_⟩
          simp [is_in_british_columbia_google, pureVerdict, hk, hl, hg]

theorem is_in_bc_hackathons (geocode : String → GeoOutcome) (a api_key : String) (s : Cache) :
    (is_in_british_columbia_google geocode a api_key s).2.1.hackathons = s.hackathons := by
  rcases is_in_bc_store geocode a api_key s with h | ⟨_, h⟩ <;> rw [h]

theorem is_in_bc_ext (geocode : String → GeoOutcome) (a api_key : String)
    {L0 : List (String × Bool)} (s : Cache) (he : extLoc geocode api_key L0 s.locations) :
    extLoc geocode api_key L0 (is_in_british_columbia_google geocode a api_key s).2.1.locations := by
  rcases is_in_bc_store geocode a api_key s with h | ⟨hnone, h⟩
  · rw [h]
    exact he
  · rw [h]
    exact extLoc_insert geocode api_key he hnone

theorem geographyPasses_spec (geocode : String → GeoOutcome) (api_key location : String)
    {L0 : List (String × Bool)} (s : Cache) (he : extLoc geocode api_key L0 s.locations) :
    (geographyPasses geocode api_key location s).1 = pureGeo geocode api_key L0 location
    ∧ (geographyPasses geocode api_key location s).2.1.hackathons = s.hackathons
    ∧ extLoc geocode api_key L0 (geographyPasses geocode api_key location s).2.1.locations := by
  by_cases ho : pyIn "online" (pyLower location) = true
  · refine ⟨?_, ?_, ?_⟩ <;> simp [geographyPasses, pureGeo, ho]
    exact he
  · have ho' : pyIn "online" (pyLower location) = false := by
      exact Bool.not_eq_true _ ▸ (by simpa using ho)
    refine ⟨?_, ?_, ?_⟩
    · rw [show (geographyPasses geocode api_key location s).1
          = (is_in_british_columbia_google geocode location api_key s).1 by
        simp [geographyPasses, ho']]
      rw [is_in_bc_verdict]
      simp [pureGeo, ho']
      exact verdictIn_ext geocode api_key he location
    · rw [show (geographyPasses geocode api_key location s).2.1
          = (is_in_british_columbia_google geocode location api_key s).2.1 by
        simp [geographyPasses, ho']]
      exact is_in_bc_hackathons geocode location api_key s
    · rw [show (geographyPasses geocode api_key location s).2.1
          = (is_in_british_columbia_google geocode location api_key s).2.1 by
        simp [geographyPasses, ho']]
      exact is_in_bc_ext geocode location api_key s he

theorem processOne_spec (geocode : String → GeoOutcome) (api_key : String)
    (seen : List (String × FilteredHackathon)) (h : RawHackathon)
    {L0 : List (String × Bool)} (s : Cache) (he : extLoc geocode api_key L0 s.locations) :
    (processOne geocode api_key seen h s).1 = pureOutcome geocode api_key L0 seen h
    ∧ (processOne geocode api_key seen h s).2.hackathons = s.hackathons
    ∧ extLoc geocode api_key L0 (processOne geocode api_key seen h s).2.locations := by
  obtain ⟨hgv, hgh, hge⟩ := geographyPasses_spec geocode api_key (h.location.getD "Unknown") s he
  by_cases hseen : (List.lookup (h.url.getD "N/A") seen).isSome = true
  · obtain ⟨v, hv⟩ := Option.isSome_iff_exists.mp hseen
    refine ⟨?_, ?_, ?_⟩ <;> simp [processOne, pureOutcome, hv]
    exact he
  · have hseen' : (List.lookup (h.url.getD "N/A") seen).isSome = false := by
      rwa [Bool.not_eq_true] at hseen
    cases hp : h.prize_text.data with
    | nil =>
      refine ⟨?_, ?_, ?_⟩ <;> simp [processOne, pureOutcome, hseen', hp]
      exact he
    | cons c cs =>
      cases ht : List.lookup (String.mk [c]) SYMBOL_TO_CURRENCY with
      | none =>
        refine ⟨?_, ?_, ?_⟩ <;> simp [processOne, pureOutcome, hseen', hp, ht]
        exact he
      | some currency_code =>
        by_cases hc : currency_code = ""
        · refine ⟨?_, ?_, ?_⟩ <;> simp [processOne, pureOutcome, hseen', hp, ht, hc]
          exact he
        · by_cases hpass : pureGeo geocode api_key L0 (h.location.getD "Unknown") = true
          · refine ⟨?_, ?_, ?_⟩ <;>
              simp [processOne, pureOutcome, hseen', hp, ht, hc, hgv, hpass, hgh, hge]
          · have hpass' : pureGeo geocode api_key L0 (h.location.getD "Unknown") = false := by
              simpa using hpass
            refine ⟨?_, ?_, ?_⟩ <;>
              simp [processOne, pureOutcome, hseen', hp, ht, hc, hgv, hpass', hgh, hge]

theorem stage1_spec (geocode : String → GeoOutcome) (api_key : String)
    (seen : List (String × FilteredHackathon)) :
    ∀ (hs : List RawHackathon) (s : Cache) {L0 : List (String × Bool)},
    extLoc geocode api_key L0 s.locations →
    (stage1 geocode api_key seen hs s).1 = hs.filterMap (pureOutcome geocode api_key L0 seen)
    ∧ (stage1 geocode api_key seen hs s).2.hackathons = s.hackathons
    ∧ extLoc geocode api_key L0 (stage1 geocode api_key seen hs s).2.locations := by
  intro hs
  induction hs with
  | nil =>
    intro s L0 he
    exact ⟨rfl, rfl, he⟩
  | cons h rest ih =>
    intro s L0 he
    obtain ⟨h1, h2, h3⟩ := processOne_spec geocode api_key seen h s he
    rcases hp : processOne geocode api_key seen h s with ⟨opt, s₁⟩
    rw [hp] at h1 h2 h3
    have h1' : pureOutcome geocode api_key L0 seen h = opt := h1.symm
    have h2' : s₁.hackathons = s.hackathons := h2
    have h3' : extLoc geocode api_key L0 s₁.locations := h3
    obtain ⟨ih1, ih2, ih3⟩ := ih s₁ h3'
    cases opt with
    | none =>
      refine ⟨?_, ?_, ?_⟩
      · simp only [stage1, hp, List.filterMap_cons, h1']
        exact ih1
      · simp only [stage1, hp]
        rw [ih2, h2']
      · simp only [stage1, hp]
        exact ih3
    | some fh =>
      refine ⟨?_, ?_, ?_⟩
      · simp only [stage1, hp, List.filterMap_cons, h1']
        rw [ih1]
      · simp only [stage1, hp]
        rw [ih2, h2']
      · simp only [stage1, hp]
        exact ih3

theorem stage2_cons (detailed_info : List (String × Details)) (h : FilteredHackathon)
    (rest : List FilteredHackathon) (hc : List (String × FilteredHackathon)) :
    stage2 detailed_info (h :: rest) hc =
      if stage2Pass detailed_info h then
        ((h :: (stage2 detailed_info rest (insertAssoc h.url h hc)).1),
         (stage2 detailed_info rest (insertAssoc h.url h hc)).2)
      else stage2 detailed_info rest hc := by
  by_cases h1 : (((List.lookup h.url detailed_info).getD { eligibility_items := none, us_only := none }).us_only.getD false) = true
  · simp [stage2, stage2Pass, h1]
  · have h1' : (((List.lookup h.url detailed_info).getD { eligibility_items := none, us_only := none }).us_only.getD false) = false := by
      rwa [Bool.not_eq_true] at h1
    by_cases h2 : is_target_audience (((List.lookup h.url detailed_info).getD { eligibility_items := none, us_only := none }).eligibility_items.getD []) = true
    · simp [stage2, stage2Pass, h1', h2]
    · have h2' : is_target_audience (((List.lookup h.url detailed_info).getD { eligibility_items := none, us_only := none }).eligibility_items.getD []) = false := by
        rwa [Bool.not_eq_true] at h2
      simp [stage2, stage2Pass, h1', h2']

theorem stage2_all_rejected (detailed_info : List (String × Details)) :
    ∀ (F : List FilteredHackathon) (hc : List (String × FilteredHackathon)),
    (∀ h ∈ F, stage2Pass detailed_info h = false) →
    stage2 detailed_info F hc = ([], hc) := by
  intro F
  induction F with
  | nil => intro hc _; rfl
  | cons h rest ih =>
    intro hc hall
    rw [stage2_cons, if_neg]
    · exact ih hc (fun x hx => hall x (List.mem_cons_of_mem h hx))
    · rw [hall h (List.mem_cons_self h rest)]
      simp

theorem stage2_sublist (detailed_info : List (String × Details)) :
    ∀ (F : List FilteredHackathon) (hc : List (String × FilteredHackathon)),
    (stage2 detailed_info F hc).1.Sublist F := by
  intro F
  induction F with
  | nil => intro hc; simp [stage2]
  | cons h rest ih =>
    intro hc
    rw [stage2_cons]
    by_cases hp : stage2Pass detailed_info h = true
    · rw [if_pos hp]
      exact List.Sublist.cons₂ h (ih (insertAssoc h.url h hc))
    · rw [if_neg hp]
      exact List.Sublist.cons h (ih hc)

theorem stage2_mem_of_pass (detailed_info : List (String × Details)) :
    ∀ (F : List FilteredHackathon) (hc : List (String × FilteredHackathon))
    (h : FilteredHackathon), h ∈ F → stage2Pass detailed_info h = true →
    h ∈ (stage2 detailed_info F hc).1 := by
  intro F
  induction F with
  | nil => intro hc h hmem; cases hmem
  | cons g rest ih =>
    intro hc h hmem hpass
    rw [stage2_cons]
    rcases List.mem_cons.mp hmem with rfl | hmem'
    · rw [if_pos hpass]
      exact List.mem_cons_self _ _
    · by_cases hg : stage2Pass detailed_info g = true
      · rw [if_pos hg]
        exact List.mem_cons_of_mem g (ih _ h hmem' hpass)
      · rw [if_neg hg]
        exact ih hc h hmem' hpass

theorem stage2_cache_isSome (detailed_info : List (String × Details)) :
    ∀ (F : List FilteredHackathon) (hc : List (String × FilteredHackathon))
    (u : String), (List.lookup u hc).isSome = true →
    (List.lookup u (stage2 detailed_info F hc).2).isSome = true := by
  intro F
  induction F with
  | nil => intro hc u hu; exact hu
  | cons g rest ih =>
    intro hc u hu
    rw [stage2_cons]
    by_cases hg : stage2Pass detailed_info g = true
    · rw [if_pos hg]
      exact ih _ u (lookup_insertAssoc_isSome g.url g hu)
    · rw [if_neg hg]
      exact ih hc u hu

theorem stage2_pass_mem_cache (detailed_info : List (String × Details)) :
    ∀ (F : List FilteredHackathon) (hc : List (String × FilteredHackathon))
    (h : FilteredHackathon), h ∈ F → stage2Pass detailed_info h = true →
    (List.lookup h.url (stage2 detailed_info F hc).2).isSome = true := by
  intro F
  induction F with
  | nil => intro hc h hmem; cases hmem
  | cons g rest ih =>
    intro hc h hmem hpass
    rw [stage2_cons]
    rcases List.mem_cons.mp hmem with rfl | hmem'
    · rw [if_pos hpass]
      exact stage2_cache_isSome detailed_info rest _ h.url
        (by simp [lookup_insertAssoc_self])
    · by_cases hg : stage2Pass detailed_info g = true
      · rw [if_pos hg]
        exact ih _ h hmem' hpass
      · rw [if_neg hg]
        exact ih hc h hmem' hpass

theorem fetchall_lookup (fetch : String → FetchResult) :
    ∀ (F : List FilteredHackathon) (acc : List (String × Details)) (u : String),
    ((∃ h ∈ F, h.url = u) ∨ List.lookup u acc = some (detailFor fetch u)) →
    List.lookup u (fetch_all_hackathon_details fetch F acc) = some (detailFor fetch u) := by
  intro F
  induction F with
  | nil =>
    intro acc u hu
    rcases hu with ⟨h, hmem, _⟩ | hacc
    · cases hmem
    · exact hacc
  | cons g rest ih =>
    intro acc u hu
    show List.lookup u (fetch_all_hackathon_details fetch rest (insertAssoc g.url (detailFor fetch g.url) acc)) = _
    apply ih
    rcases hu with ⟨h, hmem, hurl⟩ | hacc
    · rcases List.mem_cons.mp hmem with rfl | hmem'
      · right
        rw [← hurl, lookup_insertAssoc_self]
      · left
        exact ⟨h, hmem', hurl⟩
    · by_cases hug : u = g.url
      · right
        rw [hug, lookup_insertAssoc_self]
      · right
        rw [lookup_insertAssoc_ne hug]
        exact hacc

theorem stage2Pass_eq_eligPure (fetch : String → FetchResult)
    {detailed_info : List (String × Details)} {h : FilteredHackathon}
    (hl : List.lookup h.url detailed_info = some (detailFor fetch h.url)) :
    stage2Pass detailed_info h = eligPure fetch h := by
  simp [stage2Pass, eligPure, hl]

theorem pureOutcome_url (geocode : String → GeoOutcome) (api_key : String)
    (L0 : List (String × Bool)) (seen : List (String × FilteredHackathon))
    (h : RawHackathon) (fh : FilteredHackathon)
    (H : pureOutcome geocode api_key L0 seen h = some fh) :
    fh.url = h.url.getD "N/A" := by
  unfold pureOutcome at H
  split at H
  · cases H
  · split at H
    · cases H
    · split at H
      · cases H
      · split at H
        · cases H
        · split at H
          · injection H with H2
            rw [← H2]
          · cases H

theorem pureOutcome_seen (geocode : String → GeoOutcome) (api_key : String)
    (L0 : List (String × Bool)) (seen : List (String × FilteredHackathon))
    (h : RawHackathon) (fh : FilteredHackathon)
    (H : pureOutcome geocode api_key L0 seen h = some fh) :
    (List.lookup (h.url.getD "N/A") seen).isSome = false := by
  by_cases hs : (List.lookup (h.url.getD "N/A") seen).isSome = true
  · unfold pureOutcome at H
    rw [if_pos hs] at H
    cases H
  · rwa [Bool.not_eq_true] at hs

theorem pureOutcome_seen_congr (geocode : String → GeoOutcome) (api_key : String)
    (L0 : List (String × Bool)) (seen₁ seen₂ : List (String × FilteredHackathon))
    (h : RawHackathon)
    (H : (List.lookup (h.url.getD "N/A") seen₁).isSome
       = (List.lookup (h.url.getD "N/A") seen₂).isSome) :
    pureOutcome geocode api_key L0 seen₁ h = pureOutcome geocode api_key L0 seen₂ h := by
  unfold pureOutcome
  rw [H]

theorem fetch_empty_case (geocode : String → GeoOutcome) (fetch : String → FetchResult)
    (api_key : String) (hs : List RawHackathon) (s : Cache)
    (h0 : hs.isEmpty = false)
    (hf : (stage1 geocode api_key s.hackathons hs s).1.isEmpty = true) :
    fetch_hackathon_data geocode fetch api_key hs s
      = ([], (stage1 geocode api_key s.hackathons hs s).2) := by
  simp [fetch_hackathon_data, h0, hf]

theorem fetch_main_case (geocode : String → GeoOutcome) (fetch : String → FetchResult)
    (api_key : String) (hs : List RawHackathon) (s : Cache)
    (h0 : hs.isEmpty = false)
    (hf : (stage1 geocode api_key s.hackathons hs s).1.isEmpty = false) :
    fetch_hackathon_data geocode fetch api_key hs s =
      ((stage2 (fetch_all_hackathon_details fetch (stage1 geocode api_key s.hackathons hs s).1 [])
          (stage1 geocode api_key s.hackathons hs s).1 s.hackathons).1,
       { hackathons :=
           (stage2 (fetch_all_hackathon_details fetch (stage1 geocode api_key s.hackathons hs s).1 [])
              (stage1 geocode api_key s.hackathons hs s).1 s.hackathons).2,
         locations := s.locations }) := by
  simp [fetch_hackathon_data, h0, hf]

/-- A run over a store whose every stage-one survivor fails the
eligibility test returns no results and leaves the hackathons partition
untouched. -/
theorem second_run (geocode : String → GeoOutcome) (fetch : String → FetchResult)
    (api_key : String) (hs : List RawHackathon) (s1 : Cache)
    {L0 : List (String × Bool)}
    (h0 : hs.isEmpty = false)
    (hE : extLoc geocode api_key L0 s1.locations)
    (hnotnew : ∀ fh ∈ hs.filterMap (pureOutcome geocode api_key L0 s1.hackathons),
      eligPure fetch fh = false) :
    (fetch_hackathon_data geocode fetch api_key hs s1).1 = []
    ∧ (fetch_hackathon_data geocode fetch api_key hs s1).2.hackathons = s1.hackathons := by
  obtain ⟨hF2, hH2, hE2⟩ := stage1_spec geocode api_key s1.hackathons hs s1 hE
  have hrej : ∀ fh ∈ (stage1 geocode api_key s1.hackathons hs s1).1,
      stage2Pass (fetch_all_hackathon_details fetch (stage1 geocode api_key s1.hackathons hs s1).1 []) fh = false := by
    intro fh hmem
    have hlook : List.lookup fh.url
        (fetch_all_hackathon_details fetch (stage1 geocode api_key s1.hackathons hs s1).1 [])
        = some (detailFor fetch fh.url) :=
      fetchall_lookup fetch _ [] fh.url (Or.inl ⟨fh, hmem, rfl⟩)
    rw [stage2Pass_eq_eligPure fetch hlook]
    exact hnotnew fh (hF2 ▸ hmem)
  by_cases hf2 : (stage1 geocode api_key s1.hackathons hs s1).1.isEmpty = true
  · rw [fetch_empty_case geocode fetch api_key hs s1 h0 hf2]
    exact ⟨rfl, hH2⟩
  · have hf2' : (stage1 geocode api_key s1.hackathons hs s1).1.isEmpty = false := by
      rwa [Bool.not_eq_true] at hf2
    rw [fetch_main_case geocode fetch api_key hs s1 h0 hf2']
    have hall := stage2_all_rejected
      (fetch_all_hackathon_details fetch (stage1 geocode api_key s1.hackathons hs s1).1 [])
      (stage1 geocode api_key s1.hackathons hs s1).1 s1.hackathons hrej
    constructor
    · simp [hall]
    · simp [hall]

/-- Claim C5: running the filter pipeline twice in succession over
identical upstream listing data yields an empty result set on the second
run, and the hackathons cache partition is identical before and after the
second run — every url accepted in the first run is caught by the
seen-filter (and every other listing is rejected again) in the second. -/
theorem claim_C5_idempotence (geocode : String → GeoOutcome) (fetch : String → FetchResult)
    (api_key : String) (hs : List RawHackathon) (s : Cache) :
    (fetch_hackathon_data geocode fetch api_key hs
        (fetch_hackathon_data geocode fetch api_key hs s).2).1 = []
    ∧ (fetch_hackathon_data geocode fetch api_key hs
        (fetch_hackathon_data geocode fetch api_key hs s).2).2.hackathons
      = (fetch_hackathon_data geocode fetch api_key hs s).2.hackathons := by
  by_cases h0 : hs.isEmpty = true
  · constructor <;> simp [fetch_hackathon_data, h0]
  · have h0' : hs.isEmpty = false := by rwa [Bool.not_eq_true] at h0
    obtain ⟨hF1, hH1, hE1⟩ :=
      stage1_spec geocode api_key s.hackathons hs s (extLoc_refl geocode api_key s.locations)
    by_cases hf1 : (stage1 geocode api_key s.hackathons hs s).1.isEmpty = true
    · have hnil : (stage1 geocode api_key s.hackathons hs s).1 = [] := by
        cases hl : (stage1 geocode api_key s.hackathons hs s).1 with
        | nil => rfl
        | cons a l =>
          rw [hl] at hf1
          simp [List.isEmpty] at hf1
      have hrun1 := fetch_empty_case geocode fetch api_key hs s h0' hf1
      apply second_run geocode fetch api_key hs _ h0'
      · rw [hrun1]
        exact hE1
      · intro fh hmem
        rw [hrun1] at hmem
        exfalso
        have hmem2 : fh ∈ hs.filterMap (pureOutcome geocode api_key s.locations
            ((stage1 geocode api_key s.hackathons hs s).2).hackathons) := hmem
        rw [hH1, ← hF1, hnil] at hmem2
        cases hmem2
    · have hf1' : (stage1 geocode api_key s.hackathons hs s).1.isEmpty = false := by
        rwa [Bool.not_eq_true] at hf1
      have hrun1 := fetch_main_case geocode fetch api_key hs s h0' hf1'
      apply second_run geocode fetch api_key hs _ h0'
      · rw [hrun1]
        exact extLoc_refl geocode api_key s.locations
      · intro fh hmem
        rw [hrun1] at hmem
        have hmem2 : fh ∈ hs.filterMap (pureOutcome geocode api_key s.locations
            (stage2 (fetch_all_hackathon_details fetch (stage1 geocode api_key s.hackathons hs s).1 [])
              (stage1 geocode api_key s.hackathons hs s).1 s.hackathons).2) := hmem
        obtain ⟨h, hh, hpo1⟩ := List.mem_filterMap.mp hmem2
        have hurl := pureOutcome_url geocode api_key s.locations _ h fh hpo1
        have hseen1 := pureOutcome_seen geocode api_key s.locations _ h fh hpo1
        have hseen0 : (List.lookup (h.url.getD "N/A") s.hackathons).isSome = false := by
          by_cases hx : (List.lookup (h.url.getD "N/A") s.hackathons).isSome = true
          · have hsome := stage2_cache_isSome
              (fetch_all_hackathon_details fetch (stage1 geocode api_key s.hackathons hs s).1 [])
              (stage1 geocode api_key s.hackathons hs s).1 s.hackathons (h.url.getD "N/A") hx
            rw [hseen1] at hsome
            cases hsome
          · rwa [Bool.not_eq_true] at hx
        have hEQiso : (List.lookup (h.url.getD "N/A") s.hackathons).isSome
            = (List.lookup (h.url.getD "N/A")
                (stage2 (fetch_all_hackathon_details fetch (stage1 geocode api_key s.hackathons hs s).1 [])
                  (stage1 geocode api_key s.hackathons hs s).1 s.hackathons).2).isSome := by
          rw [hseen0, hseen1]
        have hpo0 : pureOutcome geocode api_key s.locations s.hackathons h = some fh := by
          rw [pureOutcome_seen_congr geocode api_key s.locations s.hackathons _ h hEQiso]
          exact hpo1
        have hmemF1 : fh ∈ (stage1 geocode api_key s.hackathons hs s).1 := by
          rw [hF1]
          exact List.mem_filterMap.mpr ⟨h, hh, hpo0⟩
        have hlook1 : List.lookup fh.url
            (fetch_all_hackathon_details fetch (stage1 geocode api_key s.hackathons hs s).1 [])
            = some (detailFor fetch fh.url) :=
          fetchall_lookup fetch _ [] fh.url (Or.inl ⟨fh, hmemF1, rfl⟩)
        by_cases hy : eligPure fetch fh = true
        · exfalso
          have hpass1 : stage2Pass
              (fetch_all_hackathon_details fetch (stage1 geocode api_key s.hackathons hs s).1 []) fh
              = true := by
            rw [stage2Pass_eq_eligPure fetch hlook1]
            exact hy
          have hins := stage2_pass_mem_cache
            (fetch_all_hackathon_details fetch (stage1 geocode api_key s.hackathons hs s).1 [])
            (stage1 geocode api_key s.hackathons hs s).1 s.hackathons fh hmemF1 hpass1
          rw [hurl] at hins
          rw [hseen1] at hins
          cases hins
        · rwa [Bool.not_eq_true] at hy

theorem bcComponents_iff (cs : List AddressComponent) :
    bcComponents cs = true ↔
      ∀ c ∈ cs,
        ¬(("administrative_area_level_1" ∈ c.types ∧ pyLower c.long_name ≠ "british columbia")
          ∨ ("country" ∈ c.types ∧ pyLower c.short_name ≠ "ca")) := by
  induction cs with
  | nil => simp [bcComponents]
  | cons c rest ih =>
    by_cases h1 : (c.types.contains "administrative_area_level_1" && !(pyLower c.long_name == "british columbia")) = true
    · simp only [bcComponents, h1, if_true]
      constructor
      · intro hfalse
        cases hfalse
      · intro hall
        exfalso
        apply hall c (List.mem_cons_self c rest)
        left
        rw [Bool.and_eq_true] at h1
        exact ⟨by simpa using h1.1, by simpa using h1.2⟩
    · have h1' : (c.types.contains "administrative_area_level_1" && !(pyLower c.long_name == "british columbia")) = false := by
        rwa [Bool.not_eq_true] at h1
      by_cases h2 : (c.types.contains "country" && !(pyLower c.short_name == "ca")) = true
      · simp only [bcComponents, h1', h2, Bool.false_eq_true, if_false, if_true]
        constructor
        · intro hfalse
          cases hfalse
        · intro hall
          exfalso
          apply hall c (List.mem_cons_self c rest)
          right
          rw [Bool.and_eq_true] at h2
          exact ⟨by simpa using h2.1, by simpa using h2.2⟩
      · have h2' : (c.types.contains "country" && !(pyLower c.short_name == "ca")) = false := by
          rwa [Bool.not_eq_true] at h2
        simp only [bcComponents, h1', h2', Bool.false_eq_true, if_false]
        rw [ih]
        constructor
        · intro hall x hx
          rcases List.mem_cons.mp hx with rfl | hx'
          · intro hbad
            rcases hbad with ⟨hmem, hne⟩ | ⟨hmem, hne⟩
            · have hc1 : x.types.contains "administrative_area_level_1" = true := by
                simpa using hmem
              have hb1 : (pyLower x.long_name == "british columbia") = false := by
                simpa using hne
              rw [hc1, hb1] at h1'
              simp at h1'
            · have hc2 : x.types.contains "country" = true := by
                simpa using hmem
              have hb2 : (pyLower x.short_name == "ca") = false := by
                simpa using hne
              rw [hc2, hb2] at h2'
              simp at h2'
          · exact hall x hx'
        · intro hall x hx
          exact hall x (List.mem_cons_of_mem c hx)

theorem filterMap_map_sublist {α β γ : Type} (f : α → Option β) (u : β → γ) (v : α → γ)
    (huv : ∀ a b, f a = some b → u b = v a) :
    ∀ l : List α, ((l.filterMap f).map u).Sublist (l.map v) := by
  intro l
  induction l with
  | nil => simp
  | cons a t ih =>
    cases hf : f a with
    | none =>
      rw [List.filterMap_cons, hf, List.map_cons]
      exact List.Sublist.cons (v a) ih
    | some b =>
      rw [List.filterMap_cons, hf, List.map_cons, List.map_cons, huv a b hf]
      exact List.Sublist.cons₂ (v a) ih

/-- Claim C1 (code bug): contrary to the spec and to the docstring of
`fetch_hackathon_data` (which lists a prize-amount-greater-than-zero
filter), the pipeline has no zero-prize stage: a listing whose prize text
is `$0` — or whose non-numeric remainder parses to 0 — is accepted and
appears in the result set with prize `USD 0`.  Evaluation at the failing
inputs. -/
theorem claim_C1_zero_prize_accepted :
    (fetch_hackathon_data (fun _ => GeoOutcome.error) (fun _ => FetchResult.failed) "key"
        [{ title := some "ZeroPrize", url := some "https://x/zero", location := some "Online",
           prize_text := "$0", submission_period_dates := some "Jan 1" }] ⟨[], []⟩).1
      = [{ name := "ZeroPrize", url := "https://x/zero", location := "Online",
           prize := "USD 0", date := "Jan 1" }]
    ∧ (fetch_hackathon_data (fun _ => GeoOutcome.error) (fun _ => FetchResult.failed) "key"
        [{ title := some "NonNumeric", url := some "https://x/nonnum", location := some "Online",
           prize_text := "$abc", submission_period_dates := some "Feb 2" }] ⟨[], []⟩).1
      = [{ name := "NonNumeric", url := "https://x/nonnum", location := "Online",
           prize := "USD 0", date := "Feb 2" }] := by
  decide

/-- Claim C2 (code bug): the table maps the literal token `CAD` to CAD and
the docstring promises USD-or-CAD awards, yet the pipeline always takes
the single first character of the prize text as the currency token, so a
prize text beginning with `CAD` is rejected as excluded-currency (token
`C` is not in the table) and the `CAD` table entry is unreachable.  The
rupee rejection the claim also states does hold.  Evaluation at the
failing input `CAD5,000` and at `₹180,000`. -/
theorem claim_C2_cad_token_rejected :
    List.lookup "CAD" SYMBOL_TO_CURRENCY = some "CAD"
    ∧ fetch_hackathon_data (fun _ => GeoOutcome.error) (fun _ => FetchResult.failed) "key"
        [{ title := some "CadHack", url := some "https://x/cad", location := some "Online",
           prize_text := "CAD5,000", submission_period_dates := some "d" }] ⟨[], []⟩
      = ([], ⟨[], []⟩)
    ∧ fetch_hackathon_data (fun _ => GeoOutcome.error) (fun _ => FetchResult.failed) "key"
        [{ title := some "InrHack", url := some "https://x/inr", location := some "Online",
           prize_text := "₹180,000", submission_period_dates := some "d" }] ⟨[], []⟩
      = ([], ⟨[], []⟩) := by
  decide

/-- Claim C3 counterexample: a geocoding lookup that fails with a network
or parse error returns false but stores nothing — the locations partition
is unchanged — and an immediately repeated lookup of the same text issues
another outbound call (final flag true both times), contradicting the
claimed negative caching of every failure. -/
theorem claim_C3_counterexample :
    is_in_british_columbia_google (fun _ => GeoOutcome.error) "Kelowna, BC" "key" ⟨[], []⟩
      = (false, ⟨[], []⟩, true)
    ∧ (is_in_british_columbia_google (fun _ => GeoOutcome.error) "Kelowna, BC" "key"
        (is_in_british_columbia_google (fun _ => GeoOutcome.error) "Kelowna, BC" "key" ⟨[], []⟩).2.1).2.2
      = true := by
  decide

/-- Claim C3 amended: only an empty geocoding result set is negatively
cached — the resolver then returns false, stores false under the location
text, and a repeated lookup returns false from the cache without another
outbound call; a lookup failing with a network or parse error, or with a
missing credential, returns false without writing to the cache. -/
theorem claim_C3_amended (geocode : String → GeoOutcome) (a api_key : String) (s : Cache) :
    (api_key ≠ "" → List.lookup a s.locations = none → geocode a = GeoOutcome.error →
      is_in_british_columbia_google geocode a api_key s = (false, s, true))
    ∧ (api_key ≠ "" → List.lookup a s.locations = none → geocode a = GeoOutcome.results [] →
      is_in_british_columbia_google geocode a api_key s
        = (false, { s with locations := insertAssoc a false s.locations }, true)
      ∧ is_in_british_columbia_google geocode a api_key
          { s with locations := insertAssoc a false s.locations }
        = (false, { s with locations := insertAssoc a false s.locations }, false))
    ∧ is_in_british_columbia_google geocode a "" s = (false, s, false) := by
  refine ⟨?_, ?_, ?_⟩
  · intro hk hl hg
    simp [is_in_british_columbia_google, hk, hl, hg]
  · intro hk hl hg
    constructor
    · simp [is_in_british_columbia_google, hk, hl, hg]
    · simp [is_in_british_columbia_google, hk, lookup_insertAssoc_self]
  · simp [is_in_british_columbia_google]

/-- Witness for the amended C3 theorem at concrete inputs. -/
theorem claim_C3_amended_witness :
    is_in_british_columbia_google (fun _ => GeoOutcome.error) "ErrTown" "k" ⟨[], []⟩
      = (false, ⟨[], []⟩, true)
    ∧ (is_in_british_columbia_google (fun _ => GeoOutcome.results []) "NoTown" "k" ⟨[], []⟩
        = (false, ⟨[], [("NoTown", false)]⟩, true)
      ∧ is_in_british_columbia_google (fun _ => GeoOutcome.results []) "NoTown" "k"
          ⟨[], [("NoTown", false)]⟩
        = (false, ⟨[], [("NoTown", false)]⟩, false)) :=
  ⟨(claim_C3_amended (fun _ => GeoOutcome.error) "ErrTown" "k" ⟨[], []⟩).1
      (by decide) (by decide) rfl,
   (claim_C3_amended (fun _ => GeoOutcome.results []) "NoTown" "k" ⟨[], []⟩).2.1
      (by decide) (by decide) rfl⟩

/-- Claim C4 counterexample: an absent geocoding credential is handled as
a per-call failure inside the resolver — the call returns false without
contacting the provider, even though the provider would have resolved the
address to British Columbia — instead of the claimed fatal startup
error. -/
theorem claim_C4_counterexample :
    is_in_british_columbia_google
      (fun _ => GeoOutcome.results
        [⟨[⟨["administrative_area_level_1"], "British Columbia", "BC"⟩,
           ⟨["country"], "Canada", "CA"⟩]⟩])
      "Vancouver, BC" "" ⟨[], []⟩ = (false, ⟨[], []⟩, false) := by
  decide

/-- Claim C4 amended: absence of the geocoding credential is a per-call
condition inside the geography resolver, which degrades to false without
issuing a call; the credentials checked fatally at startup are the
cache-store URL and token, whose module-level check raises when either is
absent. -/
theorem claim_C4_amended :
    (∀ (geocode : String → GeoOutcome) (a : String) (s : Cache),
      is_in_british_columbia_google geocode a "" s = (false, s, false))
    ∧ cacheModuleInit "" "token" = Except.error "CACHE_KV_REST_API_URL not set."
    ∧ cacheModuleInit "url" "" = Except.error "CACHE_KV_REST_API_TOKEN not set."
    ∧ cacheModuleInit "url" "token" = Except.ok () := by
  refine ⟨?_, rfl, rfl, rfl⟩
  intro geocode a s
  simp [is_in_british_columbia_google]

/-- Claim C6: a location whose lower-cased text contains `online` passes
the geography stage with no resolver involvement (the outcome is fixed at
pass, the store untouched, no outbound call, for every oracle); otherwise,
on a cache miss with a credential present and a nonempty geocode result,
the verdict is true exactly when no address component of the first result
explicitly mismatches — no first-level administrative division whose full
name differs case-insensitively from `british columbia` and no country
whose code differs case-insensitively from `ca` — with absent components
not evaluated. -/
theorem claim_C6_geography :
    (∀ (geocode : String → GeoOutcome) (api_key location : String) (store : Cache),
      pyIn "online" (pyLower location) = true →
      geographyPasses geocode api_key location store = (true, store, false))
    ∧ (∀ (geocode : String → GeoOutcome) (api_key location : String) (store : Cache)
        (r : GeoResult) (rest : List GeoResult),
      pyIn "online" (pyLower location) = false →
      api_key ≠ "" →
      List.lookup location store.locations = none →
      geocode location = GeoOutcome.results (r :: rest) →
      ((geographyPasses geocode api_key location store).1 = true ↔
        ∀ c ∈ r.address_components,
          ¬(("administrative_area_level_1" ∈ c.types ∧ pyLower c.long_name ≠ "british columbia")
            ∨ ("country" ∈ c.types ∧ pyLower c.short_name ≠ "ca")))) := by
  constructor
  · intro geocode api_key location store ho
    simp [geographyPasses, ho]
  · intro geocode api_key location store r rest ho hk hl hg
    rw [show (geographyPasses geocode api_key location store).1
        = bcComponents r.address_components by
      simp [geographyPasses, ho, is_in_british_columbia_google, hk, hl, hg]]
    exact bcComponents_iff r.address_components

/-- Witness for C6 at concrete inputs: an online location, and a
Victoria address resolving to a British Columbia and Canada result. -/
theorem claim_C6_geography_witness :
    geographyPasses (fun _ => GeoOutcome.error) "k" "Online, Worldwide" ⟨[], []⟩
      = (true, ⟨[], []⟩, false)
    ∧ ((geographyPasses
          (fun _ => GeoOutcome.results
            [⟨[⟨["administrative_area_level_1"], "British Columbia", "BC"⟩,
               ⟨["country"], "Canada", "CA"⟩]⟩])
          "k" "Victoria, BC" ⟨[], []⟩).1 = true ↔
        ∀ c ∈ [(⟨["administrative_area_level_1"], "British Columbia", "BC"⟩ : AddressComponent),
               ⟨["country"], "Canada", "CA"⟩],
          ¬(("administrative_area_level_1" ∈ c.types ∧ pyLower c.long_name ≠ "british columbia")
            ∨ ("country" ∈ c.types ∧ pyLower c.short_name ≠ "ca"))) :=
  ⟨claim_C6_geography.1 (fun _ => GeoOutcome.error) "k" "Online, Worldwide" ⟨[], []⟩ (by decide),
   claim_C6_geography.2
      (fun _ => GeoOutcome.results
        [⟨[⟨["administrative_area_level_1"], "British Columbia", "BC"⟩,
           ⟨["country"], "Canada", "CA"⟩]⟩])
      "k" "Victoria, BC" ⟨[], []⟩ _ []
      (by decide) (by decide) (by decide) rfl⟩

/-- Claim C7: the detail enricher returns an entry for every candidate
url, and a failed fetch for a url yields the empty detail dict for that
url — no eligibility items, restriction flag false under the lookup
defaults — without removing any other candidate entry (the first conjunct
holds for every member of the batch). -/
theorem claim_C7_enricher (fetch : String → FetchResult)
    (hackathons : List FilteredHackathon) (h : FilteredHackathon)
    (hmem : h ∈ hackathons) :
    List.lookup h.url (fetch_all_hackathon_details fetch hackathons [])
      = some (detailFor fetch h.url)
    ∧ (fetch h.url = FetchResult.failed →
        (detailFor fetch h.url).eligibility_items.getD [] = []
        ∧ (detailFor fetch h.url).us_only.getD false = false) := by
  refine ⟨fetchall_lookup fetch hackathons [] h.url (Or.inl ⟨h, hmem, rfl⟩), ?_⟩
  intro hf
  simp [detailFor, hf]

/-- Witness for C7: a two-candidate batch in which the first fetch fails;
the failed candidate maps to the empty detail and both urls have
entries. -/
theorem claim_C7_enricher_witness :
    List.lookup "https://x/a"
        (fetch_all_hackathon_details
          (fun u => if u = "https://x/a" then FetchResult.failed else FetchResult.page ["open to all"])
          [{ name := "A", url := "https://x/a", location := "Online", prize := "USD 5", date := "d" },
           { name := "B", url := "https://x/b", location := "Online", prize := "USD 6", date := "d" }] [])
      = some (detailFor
          (fun u => if u = "https://x/a" then FetchResult.failed else FetchResult.page ["open to all"])
          "https://x/a")
    ∧ ((fun u => if u = "https://x/a" then FetchResult.failed else FetchResult.page ["open to all"])
          "https://x/a" = FetchResult.failed →
        (detailFor
          (fun u => if u = "https://x/a" then FetchResult.failed else FetchResult.page ["open to all"])
          "https://x/a").eligibility_items.getD [] = []
        ∧ (detailFor
          (fun u => if u = "https://x/a" then FetchResult.failed else FetchResult.page ["open to all"])
          "https://x/a").us_only.getD false = false) :=
  claim_C7_enricher
    (fun u => if u = "https://x/a" then FetchResult.failed else FetchResult.page ["open to all"])
    [{ name := "A", url := "https://x/a", location := "Online", prize := "USD 5", date := "d" },
     { name := "B", url := "https://x/b", location := "Online", prize := "USD 6", date := "d" }]
    { name := "A", url := "https://x/a", location := "Online", prize := "USD 5", date := "d" }
    (by decide)

/-- Claim C9 counterexample: a single upstream batch containing the same
url twice produces a result set in which that url appears twice — the
seen-filter consults only the cache snapshot loaded at the start of the
run, which is not updated during stage one, so duplicate urls within one
batch are not deduplicated. -/
theorem claim_C9_counterexample :
    ¬ ((fetch_hackathon_data (fun _ => GeoOutcome.error) (fun _ => FetchResult.failed) "key"
        [{ title := some "Dup", url := some "https://x/dup", location := some "Online",
           prize_text := "$5", submission_period_dates := some "d" },
         { title := some "Dup", url := some "https://x/dup", location := some "Online",
           prize_text := "$5", submission_period_dates := some "d" }] ⟨[], []⟩).1.map
        (fun fh => fh.url)).Nodup := by
  decide

/-- Claim C9 amended: the urls of a result set are pairwise distinct
whenever the urls of the raw upstream batch (after the `N/A` default) are
pairwise distinct; the dedup across runs comes from the seen-filter, but a
url duplicated within a single batch can appear twice in one result
set. -/
theorem claim_C9_amended (geocode : String → GeoOutcome) (fetch : String → FetchResult)
    (api_key : String) (hs : List RawHackathon) (s : Cache)
    (hnd : (hs.map (fun h => h.url.getD "N/A")).Nodup) :
    ((fetch_hackathon_data geocode fetch api_key hs s).1.map (fun fh => fh.url)).Nodup := by
  by_cases h0 : hs.isEmpty = true
  · simp [fetch_hackathon_data, h0]
  · have h0' : hs.isEmpty = false := by rwa [Bool.not_eq_true] at h0
    obtain ⟨hF1, hH1, hE1⟩ :=
      stage1_spec geocode api_key s.hackathons hs s (extLoc_refl geocode api_key s.locations)
    by_cases hf1 : (stage1 geocode api_key s.hackathons hs s).1.isEmpty = true
    · rw [fetch_empty_case geocode fetch api_key hs s h0' hf1]
      simp
    · have hf1' : (stage1 geocode api_key s.hackathons hs s).1.isEmpty = false := by
        rwa [Bool.not_eq_true] at hf1
      rw [fetch_main_case geocode fetch api_key hs s h0' hf1']
      have hsub1 := stage2_sublist
        (fetch_all_hackathon_details fetch (stage1 geocode api_key s.hackathons hs s).1 [])
        (stage1 geocode api_key s.hackathons hs s).1 s.hackathons
      have hsub2 : ((stage1 geocode api_key s.hackathons hs s).1.map (fun fh => fh.url)).Sublist
          (hs.map (fun h => h.url.getD "N/A")) := by
        rw [hF1]
        exact filterMap_map_sublist _ _ _
          (fun a b hb => pureOutcome_url geocode api_key s.locations s.hackathons a b hb) hs
      exact hnd.sublist ((hsub1.map (fun fh => fh.url)).trans hsub2)

/-- Witness for the amended C9 theorem: two distinct urls in one batch
give two distinct urls in the result. -/
theorem claim_C9_amended_witness :
    (([{ title := some "A", url := some "https://x/a", location := some "Online",
         prize_text := "$5", submission_period_dates := some "d" },
       { title := some "B", url := some "https://x/b", location := some "Online",
         prize_text := "$6", submission_period_dates := some "d" }] : List RawHackathon).map
        (fun h => h.url.getD "N/A")).Nodup
    ∧ ((fetch_hackathon_data (fun _ => GeoOutcome.error) (fun _ => FetchResult.failed) "key"
        [{ title := some "A", url := some "https://x/a", location := some "Online",
           prize_text := "$5", submission_period_dates := some "d" },
         { title := some "B", url := some "https://x/b", location := some "Online",
           prize_text := "$6", submission_period_dates := some "d" }] ⟨[], []⟩).1.map
        (fun fh => fh.url)).Nodup :=
  ⟨by decide,
   claim_C9_amended (fun _ => GeoOutcome.error) (fun _ => FetchResult.failed) "key"
     [{ title := some "A", url := some "https://x/a", location := some "Online",
        prize_text := "$5", submission_period_dates := some "d" },
      { title := some "B", url := some "https://x/b", location := some "Online",
        prize_text := "$6", submission_period_dates := some "d" }] ⟨[], []⟩ (by decide)⟩

/-- Claim C10: for a candidate whose detail page has no eligibility list
items, the parsed dict carries no region-restriction key; for that
candidate — or one whose fetch failed — the restriction flag reads false
at the eligibility filter and the candidate survives stage two into the
final list, never rejected on region or audience grounds. -/
theorem claim_C10_no_restriction (fetch : String → FetchResult)
    (candidates : List FilteredHackathon) (hc : List (String × FilteredHackathon))
    (h : FilteredHackathon) (hmem : h ∈ candidates)
    (hempty : fetch h.url = FetchResult.failed ∨ fetch h.url = FetchResult.page []) :
    (parse_hackathon_details []).us_only = none
    ∧ (detailFor fetch h.url).us_only.getD false = false
    ∧ h ∈ (stage2 (fetch_all_hackathon_details fetch candidates []) candidates hc).1 := by
  have hd : detailFor fetch h.url = { eligibility_items := none, us_only := none }
      ∨ detailFor fetch h.url = { eligibility_items := some [], us_only := none } := by
    rcases hempty with hf | hf
    · left
      simp [detailFor, hf]
    · right
      simp [detailFor, hf, parse_hackathon_details]
  have hlook := fetchall_lookup fetch candidates [] h.url (Or.inl ⟨h, hmem, rfl⟩)
  have hpass : stage2Pass (fetch_all_hackathon_details fetch candidates []) h = true := by
    rw [stage2Pass_eq_eligPure fetch hlook]
    rcases hd with hd | hd <;>
      simp [eligPure, hd, is_target_audience, excluded_keywords]
  refine ⟨rfl, ?_, stage2_mem_of_pass _ candidates hc h hmem hpass⟩
  rcases hd with hd | hd <;> simp [hd]

/-- Witness for C10: a single candidate whose fetch fails is present in
the stage-two output. -/
theorem claim_C10_no_restriction_witness :
    (parse_hackathon_details []).us_only = none
    ∧ (detailFor (fun _ => FetchResult.failed) "https://x/a").us_only.getD false = false
    ∧ ({ name := "A", url := "https://x/a", location := "Online",
         prize := "USD 5", date := "d" } : FilteredHackathon)
      ∈ (stage2
          (fetch_all_hackathon_details (fun _ => FetchResult.failed)
            [{ name := "A", url := "https://x/a", location := "Online", prize := "USD 5", date := "d" }] [])
          [{ name := "A", url := "https://x/a", location := "Online", prize := "USD 5", date := "d" }]
          []).1 :=
  claim_C10_no_restriction (fun _ => FetchResult.failed)
    [{ name := "A", url := "https://x/a", location := "Online", prize := "USD 5", date := "d" }]
    []
    { name := "A", url := "https://x/a", location := "Online", prize := "USD 5", date := "d" }
    (by decide) (Or.inl rfl)

/-- Claim C8 counterexample: the file-backed variant of the cache load
raises on malformed stored data — a file whose content fails to decode
propagates the exception (modelled by a `none` result) instead of
substituting an empty partition. -/
theorem claim_C8_counterexample :
    load_cache_file (fun _ => none) (some "][ not json") = none := rfl

/-- Claim C8 amended: the key-value-store variant of load never raises and
returns both partitions, substituting an empty mapping whenever the stored
cell is absent or fails to decode; the file-backed variant substitutes
empty partitions only for an absent file or missing keys and propagates a
decode failure on an unparseable file. -/
theorem claim_C8_amended :
    (∀ (jloads : String → Option PyVal) (locRaw : Option String),
      (load_cache_kv jloads none locRaw).1 = PyVal.dict [])
    ∧ (∀ (jloads : String → Option PyVal) (locRaw : Option String) (s : String),
        jloads s = none → (load_cache_kv jloads (some s) locRaw).1 = PyVal.dict [])
    ∧ (∀ (jloads : String → Option PyVal) (hackRaw : Option String),
      (load_cache_kv jloads hackRaw none).2 = PyVal.dict [])
    ∧ (∀ (jloads : String → Option PyVal) (hackRaw : Option String) (s : String),
        jloads s = none → (load_cache_kv jloads hackRaw (some s)).2 = PyVal.dict [])
    ∧ (∀ jload : String → Option PyVal,
        load_cache_file jload none
          = some (PyVal.dict [("hackathons", PyVal.dict []), ("locations", PyVal.dict [])]))
    ∧ (∀ (jload : String → Option PyVal) (content : String),
        jload content = none → load_cache_file jload (some content) = none) := by
  refine ⟨?_, ?_, ?_, ?_, ?_, ?_⟩
  · intro jloads locRaw
    rfl
  · intro jloads locRaw s hs
    by_cases he : s = "" <;> simp [load_cache_kv, decodeCell, he, hs]
  · intro jloads hackRaw
    rfl
  · intro jloads hackRaw s hs
    by_cases he : s = "" <;> simp [load_cache_kv, decodeCell, he, hs]
  · intro jload
    rfl
  · intro jload content hc
    simp [load_cache_file, hc]

/-- Witness for the amended C8 theorem at concrete cells and a decoder
failing on the given content. -/
theorem claim_C8_amended_witness :
    (load_cache_kv (fun _ => none) none (some "irrelevant")).1 = PyVal.dict []
    ∧ (load_cache_kv (fun _ => none) (some "][") (some "irrelevant")).1 = PyVal.dict []
    ∧ load_cache_file (fun _ => none) (some "][") = none :=
  ⟨claim_C8_amended.1 (fun _ => none) (some "irrelevant"),
   claim_C8_amended.2.1 (fun _ => none) (some "irrelevant") "][" rfl,
   claim_C8_amended.2.2.2.2.2 (fun _ => none) "][" rfl⟩

end Devpost

